import Mathlib

set_option maxRecDepth 100000

/-!
Shallow embedding of the color-conversion and shadow-refresh core of the
xf86-video-cube driver (src/cube_driver.c), together with proofs about it.

Modelling conventions:
* C `u8`/`u16`/`u32` values are `Nat` with explicit `% 2^w` at the points
  where the C code narrows or wraps; C `int` intermediates that can be
  negative are `Int`, converted back to `Nat` with the wrap that the C
  conversion to an unsigned type performs.
* The driver is compiled for the GameCube/Wii ("Hollywood") PowerPC Linux
  target, where plain `char` is unsigned; the `(char)` casts in the packing
  expression of `rgbrgb16toyuy2` are therefore embedded as `% 256`.
* The lookup tables written once by `initRGB2YUVTables` are embedded as
  total functions giving the table contents after that initialization call.
-/

/-- RGB2YUV_SHIFT from cube_driver.c line 174. -/
def RGB2YUV_SHIFT : Nat := 16

/-- RGB2YUV_LUMA from cube_driver.c line 175. -/
def RGB2YUV_LUMA : Int := 16

/-- RGB2YUV_CHROMA from cube_driver.c line 176. -/
def RGB2YUV_CHROMA : Int := 128

/-- Yr = (int)(0.299*(1<<16)) evaluated in C double arithmetic. -/
def Yr : Int := 19595

/-- Yg = (int)(0.587*(1<<16)) evaluated in C double arithmetic. -/
def Yg : Int := 38469

/-- Yb = (int)(0.114*(1<<16)) evaluated in C double arithmetic. -/
def Yb : Int := 7471

/-- Ur = (int)(-0.169*(1<<16)) evaluated in C double arithmetic. -/
def Ur : Int := -11075

/-- Ug = (int)(-0.331*(1<<16)) evaluated in C double arithmetic. -/
def Ug : Int := -21692

/-- Ub = (int)(0.500*(1<<16)) evaluated in C double arithmetic. -/
def Ub : Int := 32768

/-- Vr = (int)(0.500*(1<<16)); the source aliases r_Vr to b_Ub. -/
def Vr : Int := 32768

/-- Vg = (int)(-0.419*(1<<16)) evaluated in C double arithmetic. -/
def Vg : Int := -27459

/-- Vb = (int)(-0.081*(1<<16)) evaluated in C double arithmetic. -/
def Vb : Int := -5308

/-- Conversion of a C int value to the u32 stored in the per-channel tables. -/
def u32ofInt (x : Int) : Nat := (x % 4294967296).toNat

/-- Table r_Yr after initRGB2YUVTables: r_Yr[i] = Yr * i (stored as u32). -/
def r_Yr (i : Nat) : Nat := u32ofInt (Yr * i)

/-- Table g_Yg_ after initRGB2YUVTables:
g_Yg_[i] = Yg * i + (RGB2YUV_LUMA << RGB2YUV_SHIFT). -/
def g_Yg_ (i : Nat) : Nat := u32ofInt (Yg * i + RGB2YUV_LUMA * 2 ^ RGB2YUV_SHIFT)

/-- Table b_Yb after initRGB2YUVTables: b_Yb[i] = Yb * i. -/
def b_Yb (i : Nat) : Nat := u32ofInt (Yb * i)

/-- Table r_Ur after initRGB2YUVTables: r_Ur[i] = Ur * i (wraps as u32). -/
def r_Ur (i : Nat) : Nat := u32ofInt (Ur * i)

/-- Table g_Ug_ after initRGB2YUVTables:
g_Ug_[i] = Ug * i + (RGB2YUV_CHROMA << RGB2YUV_SHIFT). -/
def g_Ug_ (i : Nat) : Nat := u32ofInt (Ug * i + RGB2YUV_CHROMA * 2 ^ RGB2YUV_SHIFT)

/-- Table b_Ub after initRGB2YUVTables: b_Ub[i] = Ub * i. -/
def b_Ub (i : Nat) : Nat := u32ofInt (Ub * i)

/-- Table r_Vr: the source defines r_Vr as an alias of b_Ub (Vr = Ub), and
initRGB2YUVTables stores Vr * i into it, which equals Ub * i. -/
def r_Vr (i : Nat) : Nat := u32ofInt (Vr * i)

/-- Table g_Vg_ after initRGB2YUVTables:
g_Vg_[i] = Vg * i + (RGB2YUV_CHROMA << RGB2YUV_SHIFT). -/
def g_Vg_ (i : Nat) : Nat := u32ofInt (Vg * i + RGB2YUV_CHROMA * 2 ^ RGB2YUV_SHIFT)

/-- Table b_Vb after initRGB2YUVTables: b_Vb[i] = Vb * i. -/
def b_Vb (i : Nat) : Nat := u32ofInt (Vb * i)

/-- The clamp macro from cube_driver.c line 190:
clamp(x,y,z) = (z < x) ? x : ((z > y) ? y : z).  At its use sites z is a
u32 and x, y are small nonnegative ints, so the C comparisons are the
unsigned ones modelled here on Nat. -/
def clamp (x y z : Nat) : Nat := if z < x then x else if z > y then y else z

/-- RGB565 channel extraction r = (i >> 11) & 0x1f (cube_driver.c line 238). -/
def rgb565r (i : Nat) : Nat := (i >>> 11) &&& 0x1f

/-- RGB565 channel extraction g = (i >> 5) & 0x3f (cube_driver.c line 239). -/
def rgb565g (i : Nat) : Nat := (i >>> 5) &&& 0x3f

/-- RGB565 channel extraction b = (i >> 0) & 0x1f (cube_driver.c line 240). -/
def rgb565b (i : Nat) : Nat := i &&& 0x1f

/-- Bit-replication expansion of a 5-bit channel: r = (r << 3) | (r >> 2). -/
def expand5 (r : Nat) : Nat := (r <<< 3) ||| (r >>> 2)

/-- Bit-replication expansion of a 6-bit channel: g = (g << 2) | (g >> 4). -/
def expand6 (g : Nat) : Nat := (g <<< 2) ||| (g >>> 4)

/-- Table RGB16toY after initRGB2YUVTables (cube_driver.c lines 252-254).
The sum of the three u32 table entries wraps modulo 2^32 before the logical
shift; the final % 256 is the store into a u8 array element. -/
def RGB16toY (i : Nat) : Nat :=
  let r := expand5 (rgb565r i)
  let g := expand6 (rgb565g i)
  let b := expand5 (rgb565b i)
  clamp 16 235 (((r_Yr r + g_Yg_ g + b_Yb b) % 4294967296) >>> RGB2YUV_SHIFT) % 256

/-- Table RGB16toU after initRGB2YUVTables (cube_driver.c lines 255-257). -/
def RGB16toU (i : Nat) : Nat :=
  let r := expand5 (rgb565r i)
  let g := expand6 (rgb565g i)
  let b := expand5 (rgb565b i)
  clamp 16 240 (((r_Ur r + g_Ug_ g + b_Ub b) % 4294967296) >>> RGB2YUV_SHIFT) % 256

/-- Table RGB16toV after initRGB2YUVTables (cube_driver.c lines 258-260). -/
def RGB16toV (i : Nat) : Nat :=
  let r := expand5 (rgb565r i)
  let g := expand6 (rgb565g i)
  let b := expand5 (rgb565b i)
  clamp 16 240 (((r_Vr r + g_Vg_ g + b_Vb b) % 4294967296) >>> RGB2YUV_SHIFT) % 256

/-- The "mean" RGB565 pixel computed in the general branch of
rgbrgb16toyuy2 (cube_driver.c lines 296-297):
rgb = (((rgb1 >> 1) & ~0x8410) + ((rgb2 >> 1) & ~0x8410)) + ((rgb1 & rgb2) & 0x0841).
~0x8410 on a 32-bit int is the bit pattern 0xFFFF7BEF; the result is
assigned to a u16, hence the % 65536. -/
def avgRGB565 (rgb1 rgb2 : Nat) : Nat :=
  ((((rgb1 >>> 1) &&& 0xFFFF7BEF) + ((rgb2 >>> 1) &&& 0xFFFF7BEF))
    + ((rgb1 &&& rgb2) &&& 0x0841)) % 65536

/-- The packing expression of rgbrgb16toyuy2 (cube_driver.c lines 303-304):
(((char)Y1) << 24) | (((char)Cb) << 16) | (((char)Y2) << 8) | (((char)Cr) << 0).
On the driver's PowerPC targets plain char is unsigned, so each cast is a
truncation to 8 bits, embedded as % 256. -/
def yuy2pack (Y1 Cb Y2 Cr : Nat) : Nat :=
  ((Y1 % 256) <<< 24) ||| ((Cb % 256) <<< 16) ||| ((Y2 % 256) <<< 8) ||| (Cr % 256)

/-- rgbrgb16toyuy2 (cube_driver.c lines 265-305).  The C function assigns
Y1, Cb, Y2, Cr in one of two branches and then evaluates a single shared
packing expression; here the identical packing expression (yuy2pack) is
applied in each branch, which is the same computation. -/
def rgbrgb16toyuy2 (rgb1 rgb2 : Nat) : Nat :=
  if rgb1 ||| rgb2 = 0 then 0x00800080
  else if rgb1 = rgb2 then
    yuy2pack (RGB16toY rgb1) (RGB16toU rgb1) (RGB16toY rgb1) (RGB16toV rgb1)
  else
    let rgb := avgRGB565 rgb1 rgb2
    yuy2pack (RGB16toY rgb1) (RGB16toU rgb) (RGB16toY rgb2) (RGB16toV rgb)

/-- rgbrgb16toyuy2 with the three 65536-entry lookup tables abstracted as
parameters.  Used to state that the zero fast path consults no table:
its result is the same for every choice of table contents. -/
def rgbrgb16toyuy2gen (tY tU tV : Nat → Nat) (rgb1 rgb2 : Nat) : Nat :=
  if rgb1 ||| rgb2 = 0 then 0x00800080
  else if rgb1 = rgb2 then
    yuy2pack (tY rgb1) (tU rgb1) (tY rgb1) (tV rgb1)
  else
    let rgb := avgRGB565 rgb1 rgb2
    yuy2pack (tY rgb1) (tU rgb) (tY rgb2) (tV rgb)

/-- The value the C variable Y1 holds when the return expression of
rgbrgb16toyuy2 is evaluated (0 stands for the zero fast path, on which the
packing expression is not reached and the returned constant has 0 in the
corresponding byte). -/
def lumaLeft (rgb1 rgb2 : Nat) : Nat :=
  if rgb1 ||| rgb2 = 0 then 0 else RGB16toY rgb1

/-- The value the C variable Y2 holds when the return expression of
rgbrgb16toyuy2 is evaluated (on the equal-pixel branch Y2 = Y1 = RGB16toY
rgb1 = RGB16toY rgb2). -/
def lumaRight (rgb1 rgb2 : Nat) : Nat :=
  if rgb1 ||| rgb2 = 0 then 0 else RGB16toY rgb2

/-- The value the C variable Cb holds when the return expression of
rgbrgb16toyuy2 is evaluated (128 stands for the neutral chroma of the zero
fast-path constant). -/
def chromaCb (rgb1 rgb2 : Nat) : Nat :=
  if rgb1 ||| rgb2 = 0 then 128
  else if rgb1 = rgb2 then RGB16toU rgb1
  else RGB16toU (avgRGB565 rgb1 rgb2)

/-- The value the C variable Cr holds when the return expression of
rgbrgb16toyuy2 is evaluated. -/
def chromaCr (rgb1 rgb2 : Nat) : Nat :=
  if rgb1 ||| rgb2 = 0 then 128
  else if rgb1 = rgb2 then RGB16toV rgb1
  else RGB16toV (avgRGB565 rgb1 rgb2)

/-- A damage rectangle with the BoxRec fields x1, y1, x2, y2 used by
CUBERefreshArea (x2 and y2 are exclusive bounds).  Screen coordinates are
nonnegative and small, so the C short/int fields are embedded as Nat. -/
structure Box where
  x1 : Nat
  y1 : Nat
  x2 : Nat
  y2 : Nat

/-- A single 32-bit store through the output pointer: upd f a v is the
output surface f with word address a holding v. -/
def upd (f : Int → Nat) (a : Int) (v : Nat) : Int → Nat :=
  fun x => if x = a then v else f x

/-- The inner pair loop of CUBERefreshArea (cube_driver.c lines
1080-1084): i times, convert the two 16-bit shadow pixels rgb[0], rgb[1]
at the current source position and store the packed word at the current
destination word, then advance the source u32 pointer (two u16 indices)
and the destination by one word.  Pointers are carried as indices in the
unit of access: u16 entries for the shadow, u32 words for the output. -/
def pairLoop (shadow : Int → Nat) : Nat → Int → Int → (Int → Nat) → (Int → Nat)
  | 0, _, _, out => out
  | i + 1, src, dst, out =>
      pairLoop shadow i (src + 2) (dst + 1)
        (upd out dst (rgbrgb16toyuy2 (shadow src) (shadow (src + 1))))

/-- The row loop of CUBERefreshArea (cube_driver.c lines 1077-1087): each
iteration runs the pair loop for one row, after which the C code has
advanced src32 and dst32 by pairs words and adds mod32 words; here the
next row's start indices are passed directly, which is the same total
advance. -/
def rowLoop (shadow : Int → Nat) (pairs : Nat) (mod32 : Int) :
    Nat → Int → Int → (Int → Nat) → (Int → Nat)
  | 0, _, _, out => out
  | h + 1, src, dst, out =>
      rowLoop shadow pairs mod32 h (src + 2 * (pairs : Int) + 2 * mod32)
        (dst + (pairs : Int) + mod32)
        (pairLoop shadow pairs src dst out)

/-- One iteration of the rectangle loop of CUBERefreshArea (cube_driver.c
lines 1060-1088).  left = x1 & ~1 and width = (x2+1) & ~1 with ~1 as the
32-bit pattern 0xFFFFFFFE; height = y2 - y1; both surfaces use the same
byte offset y1*ShadowPitch + left*2, converted to a u16 index for the
shadow read pointer and a u32 word index for the output write pointer
(the casts to u32* assume 4-byte alignment of that offset);
mod32 = (ShadowPitch - width*2) / 4 with C truncating division. -/
def refreshBox (shadow : Int → Nat) (pitch : Nat) (out : Int → Nat) (b : Box) :
    Int → Nat :=
  let left := b.x1 &&& 0xFFFFFFFE
  let width := (b.x2 + 1) &&& 0xFFFFFFFE
  let height := b.y2 - b.y1
  let base := b.y1 * pitch + left * 2
  let mod32 : Int := Int.tdiv ((pitch : Int) - ((width * 2 : Nat) : Int)) 4
  rowLoop shadow (width / 2) mod32 height ((base / 2 : Nat) : Int)
    ((base / 4 : Nat) : Int) out

/-- CUBERefreshArea (cube_driver.c lines 1046-1090): if the Blanked flag
is set, return with no work; otherwise process the rectangles in order. -/
def CUBERefreshArea (blanked : Bool) (shadow : Int → Nat) (pitch : Nat)
    (boxes : List Box) (out : Int → Nat) : Int → Nat :=
  if blanked then out else boxes.foldl (refreshBox shadow pitch) out

/-- CUBERefreshAll (cube_driver.c lines 1130-1139): one rectangle from
(0,0) to (640, VDisplay), with the width hardcoded to 640 in the source. -/
def CUBERefreshAll (blanked : Bool) (shadow : Int → Nat) (pitch vdisp : Nat)
    (out : Int → Nat) : Int → Nat :=
  CUBERefreshArea blanked shadow pitch [⟨0, 0, 640, vdisp⟩] out

/-- CUBESaveScreen (cube_driver.c lines 865-882) restricted to the state
it touches: the pair st = (Blanked flag, Output Surface).  It sets
Blanked = !unblank first, then on unblank repaints everything via
CUBERefreshAll (with Blanked now clear), and on blank zero-fills the
whole mapped output buffer (memset over mapped_memlen). -/
def CUBESaveScreen (shadow : Int → Nat) (pitch vdisp : Nat)
    (st : Bool × (Int → Nat)) (unblank : Bool) : Bool × (Int → Nat) :=
  if unblank then (false, CUBERefreshAll false shadow pitch vdisp st.2)
  else (true, fun _ => 0)

/-- The list of (word address, value) stores the pair loop performs, in
store order.  The values depend only on the shadow surface, never on the
output surface. -/
def writeSeq (shadow : Int → Nat) : Nat → Int → Int → List (Int × Nat)
  | 0, _, _ => []
  | i + 1, src, dst =>
      (dst, rgbrgb16toyuy2 (shadow src) (shadow (src + 1)))
        :: writeSeq shadow i (src + 2) (dst + 1)

/-- The stores the row loop performs, in store order. -/
def rowWriteSeq (shadow : Int → Nat) (pairs : Nat) (mod32 : Int) :
    Nat → Int → Int → List (Int × Nat)
  | 0, _, _ => []
  | h + 1, src, dst =>
      writeSeq shadow pairs src dst
        ++ rowWriteSeq shadow pairs mod32 h (src + 2 * (pairs : Int) + 2 * mod32)
            (dst + (pairs : Int) + mod32)

/-- The stores one rectangle performs, in store order. -/
def boxWriteSeq (shadow : Int → Nat) (pitch : Nat) (b : Box) : List (Int × Nat) :=
  let left := b.x1 &&& 0xFFFFFFFE
  let width := (b.x2 + 1) &&& 0xFFFFFFFE
  let height := b.y2 - b.y1
  let base := b.y1 * pitch + left * 2
  let mod32 : Int := Int.tdiv ((pitch : Int) - ((width * 2 : Nat) : Int)) 4
  rowWriteSeq shadow (width / 2) mod32 height ((base / 2 : Nat) : Int)
    ((base / 4 : Nat) : Int)

/-- The stores a whole unblanked refresh performs, in store order. -/
def areaWriteSeq (shadow : Int → Nat) (pitch : Nat) : List Box → List (Int × Nat)
  | [] => []
  | b :: bs => boxWriteSeq shadow pitch b ++ areaWriteSeq shadow pitch bs

/-- Replaying a store list onto an output surface, first store first. -/
def applyWrites (w : List (Int × Nat)) (out : Int → Nat) : Int → Nat :=
  w.foldl (fun f p => upd f p.1 p.2) out

/-- The value of the last store to address a in the list, if any. -/
def lastWrite : List (Int × Nat) → Int → Option Nat
  | [], _ => none
  | p :: w, a =>
      match lastWrite w a with
      | some v => some v
      | none => if p.1 = a then some p.2 else none

/-- Or-ing a value shifted left by n with a value below 2^n is addition:
the two operands occupy disjoint bit ranges. -/
theorem shiftLeft_lor_eq_add (a b n : Nat) (hb : b < 2 ^ n) :
    (a <<< n) ||| b = a <<< n + b := by
  have hsum : a <<< n + b = 2 ^ n * a + b := by
    rw [Nat.shiftLeft_eq, Nat.mul_comm]
  apply Nat.eq_of_testBit_eq
  intro j
  rw [hsum, Nat.testBit_mul_pow_two_add a hb j, Nat.testBit_or, Nat.testBit_shiftLeft]
  by_cases hj : j < n
  · have hnj : ¬ n ≤ j := by omega
    simp [hj, hnj]
  · have hbj : b.testBit j = false :=
      Nat.testBit_lt_two_pow (lt_of_lt_of_le hb (Nat.pow_le_pow_right (by omega) (by omega)))
    simp [hj, hbj, Nat.le_of_not_lt hj]

/-- The packing expression written with byte values below 256 equals plain
positional arithmetic. -/
theorem yuy2pack_arith (y1 cb y2 cr : Nat)
    (h1 : y1 < 256) (h2 : cb < 256) (h3 : y2 < 256) (h4 : cr < 256) :
    yuy2pack y1 cb y2 cr = y1 * 2 ^ 24 + cb * 2 ^ 16 + y2 * 2 ^ 8 + cr := by
  unfold yuy2pack
  rw [Nat.mod_eq_of_lt h1, Nat.mod_eq_of_lt h2, Nat.mod_eq_of_lt h3, Nat.mod_eq_of_lt h4]
  rw [Nat.lor_assoc, Nat.lor_assoc]
  rw [shiftLeft_lor_eq_add y2 cr 8 (by omega)]
  rw [shiftLeft_lor_eq_add cb (y2 <<< 8 + cr) 16
    (by rw [Nat.shiftLeft_eq]; omega)]
  rw [shiftLeft_lor_eq_add y1 (cb <<< 16 + (y2 <<< 8 + cr)) 24
    (by rw [Nat.shiftLeft_eq, Nat.shiftLeft_eq]; omega)]
  rw [Nat.shiftLeft_eq, Nat.shiftLeft_eq, Nat.shiftLeft_eq]
  omega

/-- For byte values below 256 the 8-bit casts inside the packing expression
change nothing: packing with the casts equals packing without them. -/
theorem yuy2pack_cast_noop (y1 cb y2 cr : Nat)
    (h1 : y1 < 256) (h2 : cb < 256) (h3 : y2 < 256) (h4 : cr < 256) :
    yuy2pack y1 cb y2 cr = (y1 <<< 24) ||| (cb <<< 16) ||| (y2 <<< 8) ||| cr := by
  unfold yuy2pack
  rw [Nat.mod_eq_of_lt h1, Nat.mod_eq_of_lt h2, Nat.mod_eq_of_lt h3, Nat.mod_eq_of_lt h4]

/-- Byte extraction from the packed word: most-significant to
least-significant, the four bytes are the four packed values. -/
theorem yuy2pack_bytes (y1 cb y2 cr : Nat)
    (h1 : y1 < 256) (h2 : cb < 256) (h3 : y2 < 256) (h4 : cr < 256) :
    yuy2pack y1 cb y2 cr / 2 ^ 24 % 256 = y1
  ∧ yuy2pack y1 cb y2 cr / 2 ^ 16 % 256 = cb
  ∧ yuy2pack y1 cb y2 cr / 2 ^ 8 % 256 = y2
  ∧ yuy2pack y1 cb y2 cr % 256 = cr := by
  refine ⟨?_, ?_, ?_, ?_⟩ <;> rw [yuy2pack_arith y1 cb y2 cr h1 h2 h3 h4] <;> omega

/-- The clamp macro yields a value between its two bounds whenever the
bounds are ordered. -/
theorem clamp_bounds (x y z : Nat) (h : x ≤ y) :
    x ≤ clamp x y z ∧ clamp x y z ≤ y := by
  unfold clamp
  split_ifs <;> omega

/-- A clamp to [16, y] with y < 256 survives the u8 store unchanged and
stays in [16, y]. -/
theorem clamp_mod_range (y z : Nat) (hy0 : 16 ≤ y) (hy : y < 256) :
    16 ≤ clamp 16 y z % 256 ∧ clamp 16 y z % 256 ≤ y := by
  have h := clamp_bounds 16 y z hy0
  rw [Nat.mod_eq_of_lt (by omega)]
  exact h

/-- Every luma table entry lies in the studio range [16, 235]. -/
theorem RGB16toY_range (i : Nat) : 16 ≤ RGB16toY i ∧ RGB16toY i ≤ 235 := by
  simp only [RGB16toY]
  exact clamp_mod_range 235 _ (by omega) (by omega)

/-- Every blue-chroma table entry lies in the studio range [16, 240]. -/
theorem RGB16toU_range (i : Nat) : 16 ≤ RGB16toU i ∧ RGB16toU i ≤ 240 := by
  simp only [RGB16toU]
  exact clamp_mod_range 240 _ (by omega) (by omega)

/-- Every red-chroma table entry lies in the studio range [16, 240]. -/
theorem RGB16toV_range (i : Nat) : 16 ≤ RGB16toV i ∧ RGB16toV i ≤ 240 := by
  simp only [RGB16toV]
  exact clamp_mod_range 240 _ (by omega) (by omega)

/-- Replaying a store list reads an address as the last store to it, or
the original surface content if the list never stores there. -/
theorem applyWrites_eq (w : List (Int × Nat)) :
    ∀ (out : Int → Nat) (a : Int),
      applyWrites w out a
        = match lastWrite w a with
          | some v => v
          | none => out a := by
  induction w with
  | nil => intro out a; rfl
  | cons p w ih =>
      intro out a
      show applyWrites w (upd out p.1 p.2) a = _
      rw [ih]
      cases hlw : lastWrite w a with
      | some v => simp [lastWrite, hlw]
      | none =>
          simp only [lastWrite, hlw]
          by_cases hpa : p.1 = a
          · simp [upd, hpa]
          · simp [upd, hpa, Ne.symm hpa]

/-- Replaying a concatenation replays the first part, then the second. -/
theorem applyWrites_append (w1 w2 : List (Int × Nat)) (out : Int → Nat) :
    applyWrites (w1 ++ w2) out = applyWrites w2 (applyWrites w1 out) := by
  unfold applyWrites
  rw [List.foldl_append]

/-- Replaying the same store list twice is the same as replaying it once. -/
theorem applyWrites_idem (w : List (Int × Nat)) (out : Int → Nat) :
    applyWrites w (applyWrites w out) = applyWrites w out := by
  funext a
  cases hlw : lastWrite w a with
  | some v =>
      have h1 := applyWrites_eq w (applyWrites w out) a
      have h2 := applyWrites_eq w out a
      rw [hlw] at h1 h2
      exact h1.trans h2.symm
  | none =>
      have h1 := applyWrites_eq w (applyWrites w out) a
      rw [hlw] at h1
      exact h1

/-- An address no store in the list touches reads its original content. -/
theorem applyWrites_out_of_domain (w : List (Int × Nat)) :
    ∀ (out : Int → Nat) (a : Int), (∀ p ∈ w, p.1 ≠ a) →
      applyWrites w out a = out a := by
  induction w with
  | nil => intro out a _; rfl
  | cons p w ih =>
      intro out a h
      show applyWrites w (upd out p.1 p.2) a = out a
      rw [ih _ a (fun q hq => h q (List.mem_cons_of_mem p hq))]
      unfold upd
      rw [if_neg (fun hh => h p (List.mem_cons_self p w) hh.symm)]

/-- The pair loop is the replay of its store list. -/
theorem pairLoop_eq_writes (shadow : Int → Nat) :
    ∀ (i : Nat) (src dst : Int) (out : Int → Nat),
      pairLoop shadow i src dst out = applyWrites (writeSeq shadow i src dst) out := by
  intro i
  induction i with
  | zero => intro src dst out; rfl
  | succ n ih =>
      intro src dst out
      exact ih (src + 2) (dst + 1)
        (upd out dst (rgbrgb16toyuy2 (shadow src) (shadow (src + 1))))

/-- The row loop is the replay of its store list. -/
theorem rowLoop_eq_writes (shadow : Int → Nat) (pairs : Nat) (mod32 : Int) :
    ∀ (h : Nat) (src dst : Int) (out : Int → Nat),
      rowLoop shadow pairs mod32 h src dst out
        = applyWrites (rowWriteSeq shadow pairs mod32 h src dst) out := by
  intro h
  induction h with
  | zero => intro src dst out; rfl
  | succ n ih =>
      intro src dst out
      show rowLoop shadow pairs mod32 n _ _ (pairLoop shadow pairs src dst out) = _
      rw [ih, pairLoop_eq_writes]
      show _ = applyWrites (writeSeq shadow pairs src dst ++ rowWriteSeq shadow pairs mod32 n _ _) out
      rw [applyWrites_append]

/-- One rectangle of the refresh is the replay of its store list. -/
theorem refreshBox_eq_writes (shadow : Int → Nat) (pitch : Nat)
    (out : Int → Nat) (b : Box) :
    refreshBox shadow pitch out b = applyWrites (boxWriteSeq shadow pitch b) out := by
  unfold refreshBox boxWriteSeq
  exact rowLoop_eq_writes shadow _ _ _ _ _ out

/-- An unblanked refresh is the replay of the store list of its batch. -/
theorem refreshArea_eq_writes (shadow : Int → Nat) (pitch : Nat) :
    ∀ (boxes : List Box) (out : Int → Nat),
      CUBERefreshArea false shadow pitch boxes out
        = applyWrites (areaWriteSeq shadow pitch boxes) out := by
  intro boxes
  induction boxes with
  | nil => intro out; rfl
  | cons b bs ih =>
      intro out
      show CUBERefreshArea false shadow pitch bs (refreshBox shadow pitch out b)
        = applyWrites (areaWriteSeq shadow pitch (b :: bs)) out
      rw [ih (refreshBox shadow pitch out b), refreshBox_eq_writes]
      show _ = applyWrites (boxWriteSeq shadow pitch b ++ areaWriteSeq shadow pitch bs) out
      rw [applyWrites_append]

/-- C1: for every pair of 16-bit RGB565 inputs, the conversion returns a
32-bit value whose bytes, most-significant to least-significant, are
exactly [Y_left, Cb, Y_right, Cr] (the values the C variables Y1, Cb, Y2,
Cr hold at the return, the zero fast path returning the constant whose
bytes are 0, 128, 0, 128), and the 8-bit cast applied to each value
before shifting never changes the packed result: packing without the
casts yields the same word. -/
theorem conversion_byte_layout (rgb1 rgb2 : Nat)
    (h1 : rgb1 < 65536) (h2 : rgb2 < 65536) :
    rgbrgb16toyuy2 rgb1 rgb2 / 2 ^ 24 % 256 = lumaLeft rgb1 rgb2
  ∧ rgbrgb16toyuy2 rgb1 rgb2 / 2 ^ 16 % 256 = chromaCb rgb1 rgb2
  ∧ rgbrgb16toyuy2 rgb1 rgb2 / 2 ^ 8 % 256 = lumaRight rgb1 rgb2
  ∧ rgbrgb16toyuy2 rgb1 rgb2 % 256 = chromaCr rgb1 rgb2
  ∧ rgbrgb16toyuy2 rgb1 rgb2
      = (lumaLeft rgb1 rgb2 <<< 24) ||| (chromaCb rgb1 rgb2 <<< 16)
          ||| (lumaRight rgb1 rgb2 <<< 8) ||| chromaCr rgb1 rgb2 := by
  unfold rgbrgb16toyuy2 lumaLeft lumaRight chromaCb chromaCr
  by_cases h0 : rgb1 ||| rgb2 = 0
  · simp only [h0, if_true, eq_self_iff_true]
    decide
  · by_cases heq : rgb1 = rgb2
    · subst heq
      simp only [if_neg h0, if_pos rfl]
      obtain ⟨hY1, hY2⟩ := RGB16toY_range rgb1
      obtain ⟨hU1, hU2⟩ := RGB16toU_range rgb1
      obtain ⟨hV1, hV2⟩ := RGB16toV_range rgb1
      have hb := yuy2pack_bytes (RGB16toY rgb1) (RGB16toU rgb1)
        (RGB16toY rgb1) (RGB16toV rgb1)
        (by omega) (by omega) (by omega) (by omega)
      exact ⟨hb.1, hb.2.1, hb.2.2.1, hb.2.2.2,
        yuy2pack_cast_noop _ _ _ _ (by omega) (by omega) (by omega) (by omega)⟩
    · simp only [if_neg h0, if_neg heq]
      obtain ⟨hY1, hY2⟩ := RGB16toY_range rgb1
      obtain ⟨hY3, hY4⟩ := RGB16toY_range rgb2
      obtain ⟨hU1, hU2⟩ := RGB16toU_range (avgRGB565 rgb1 rgb2)
      obtain ⟨hV1, hV2⟩ := RGB16toV_range (avgRGB565 rgb1 rgb2)
      have hb := yuy2pack_bytes (RGB16toY rgb1) (RGB16toU (avgRGB565 rgb1 rgb2))
        (RGB16toY rgb2) (RGB16toV (avgRGB565 rgb1 rgb2))
        (by omega) (by omega) (by omega) (by omega)
      exact ⟨hb.1, hb.2.1, hb.2.2.1, hb.2.2.2,
        yuy2pack_cast_noop _ _ _ _ (by omega) (by omega) (by omega) (by omega)⟩

/-- Witness for conversion_byte_layout at the concrete input pair (1, 2). -/
theorem conversion_byte_layout_witness :
    ((1 : Nat) < 65536 ∧ (2 : Nat) < 65536)
  ∧ (rgbrgb16toyuy2 1 2 / 2 ^ 24 % 256 = lumaLeft 1 2
     ∧ rgbrgb16toyuy2 1 2 / 2 ^ 16 % 256 = chromaCb 1 2
     ∧ rgbrgb16toyuy2 1 2 / 2 ^ 8 % 256 = lumaRight 1 2
     ∧ rgbrgb16toyuy2 1 2 % 256 = chromaCr 1 2
     ∧ rgbrgb16toyuy2 1 2
         = (lumaLeft 1 2 <<< 24) ||| (chromaCb 1 2 <<< 16)
             ||| (lumaRight 1 2 <<< 8) ||| chromaCr 1 2) :=
  ⟨⟨by decide, by decide⟩, conversion_byte_layout 1 2 (by decide) (by decide)⟩

/-- C4: after initRGB2YUVTables, for every 16-bit index the luma entry
lies in [16, 235] and both chroma entries lie in [16, 240]. -/
theorem tables_studio_range (i : Nat) (h : i < 65536) :
    (16 ≤ RGB16toY i ∧ RGB16toY i ≤ 235)
  ∧ (16 ≤ RGB16toU i ∧ RGB16toU i ≤ 240)
  ∧ (16 ≤ RGB16toV i ∧ RGB16toV i ≤ 240) :=
  ⟨RGB16toY_range i, RGB16toU_range i, RGB16toV_range i⟩

/-- Witness for tables_studio_range at the concrete index 0x1234. -/
theorem tables_studio_range_witness :
    ((0x1234 : Nat) < 65536)
  ∧ ((16 ≤ RGB16toY 0x1234 ∧ RGB16toY 0x1234 ≤ 235)
     ∧ (16 ≤ RGB16toU 0x1234 ∧ RGB16toU 0x1234 ≤ 240)
     ∧ (16 ≤ RGB16toV 0x1234 ∧ RGB16toV 0x1234 ≤ 240)) :=
  ⟨by decide, tables_studio_range 0x1234 (by decide)⟩

/-- C5: converting an equal pixel pair (v, v) yields equal first and third
output bytes (the two luma bytes), and second and fourth bytes that are
the chroma table lookups of v itself; on the equal-pixel branch a single
lookup of v is used and no averaged pixel is formed, and the zero fast
path returns bytes 128 which coincide with RGB16toU 0 = RGB16toV 0 = 128. -/
theorem flat_pair_single_lookup (v : Nat) (h : v < 65536) :
    rgbrgb16toyuy2 v v / 2 ^ 24 % 256 = rgbrgb16toyuy2 v v / 2 ^ 8 % 256
  ∧ rgbrgb16toyuy2 v v / 2 ^ 16 % 256 = RGB16toU v
  ∧ rgbrgb16toyuy2 v v % 256 = RGB16toV v := by
  by_cases hv : v = 0
  · subst hv
    decide
  · unfold rgbrgb16toyuy2
    have h0 : ¬ (v ||| v = 0) := by simpa using hv
    simp only [if_neg h0, if_pos rfl]
    obtain ⟨hY1, hY2⟩ := RGB16toY_range v
    obtain ⟨hU1, hU2⟩ := RGB16toU_range v
    obtain ⟨hV1, hV2⟩ := RGB16toV_range v
    have hb := yuy2pack_bytes (RGB16toY v) (RGB16toU v) (RGB16toY v) (RGB16toV v)
      (by omega) (by omega) (by omega) (by omega)
    exact ⟨hb.1.trans hb.2.2.1.symm, hb.2.1, hb.2.2.2⟩

/-- Witness for flat_pair_single_lookup at the concrete value 5. -/
theorem flat_pair_single_lookup_witness :
    ((5 : Nat) < 65536)
  ∧ (rgbrgb16toyuy2 5 5 / 2 ^ 24 % 256 = rgbrgb16toyuy2 5 5 / 2 ^ 8 % 256
     ∧ rgbrgb16toyuy2 5 5 / 2 ^ 16 % 256 = RGB16toU 5
     ∧ rgbrgb16toyuy2 5 5 % 256 = RGB16toV 5) :=
  ⟨by decide, flat_pair_single_lookup 5 (by decide)⟩

/-- C3: the all-zero pixel pair converts to exactly 0x00800080, and the
result is independent of the lookup-table contents (rgbrgb16toyuy2gen
returns the constant for every choice of tables), so no table lookup
is performed on this path. -/
theorem black_fast_path_constant :
    rgbrgb16toyuy2 0 0 = 0x00800080
  ∧ ∀ tY tU tV : Nat → Nat, rgbrgb16toyuy2gen tY tU tV 0 0 = 0x00800080 :=
  ⟨by decide, fun _ _ _ => rfl⟩

/-- C2 failing input: the averaging expression of the general branch does
not average the green field.  For greens 63 and 62 (inputs 0x07E0 and
0x07C0) the computed "mean" pixel is 0x0800: its green field is 0 while
the average of the source green fields is 62, and its red field is 1
although both source red fields are 0 - the spurious +2 green correction
selected by the 0x0841 mask (bit 6, green bit 1, instead of bit 5, the
green LSB) overflows into the red channel. -/
theorem averaged_pixel_green_channel_bug :
    avgRGB565 0x07E0 0x07C0 = 0x0800
  ∧ rgb565g (avgRGB565 0x07E0 0x07C0) = 0
  ∧ (rgb565g 0x07E0 + rgb565g 0x07C0) / 2 = 62
  ∧ rgb565r (avgRGB565 0x07E0 0x07C0) = 1
  ∧ rgb565r 0x07E0 = 0
  ∧ rgb565r 0x07C0 = 0
  ∧ rgb565b 0x07E0 = 0
  ∧ rgb565b 0x07C0 = 0 := by decide

/-- C10: the luma bytes of the zero-pair fast-path constant are 0x00,
below the floor of 16 that every luma table entry satisfies, so the fast
path returns a different word from the one the table-driven equal-pixel
packing would build for two black pixels (luma 16, chroma 128). -/
theorem zero_fast_path_below_studio_floor :
    (∀ i : Nat, 16 ≤ RGB16toY i)
  ∧ rgbrgb16toyuy2 0 0 / 2 ^ 24 % 256 = 0
  ∧ rgbrgb16toyuy2 0 0 / 2 ^ 8 % 256 = 0
  ∧ yuy2pack (RGB16toY 0) (RGB16toU 0) (RGB16toY 0) (RGB16toV 0) = 0x10801080
  ∧ rgbrgb16toyuy2 0 0 ≠ yuy2pack (RGB16toY 0) (RGB16toU 0) (RGB16toY 0) (RGB16toV 0) :=
  ⟨fun i => (RGB16toY_range i).1, by decide, by decide, by decide, by decide⟩

/-- The word addresses stored by the batch containing only the rectangle
(3, 10, 9, 12) at pitch 1280: five words per row starting at word
(10*1280 + 2*2)/4 = 3201 (row 10, pixel columns 2-11) and at word 3521
(row 11, pixel columns 2-11). -/
theorem area3writes_addresses (shadow : Int → Nat) :
    List.map Prod.fst (areaWriteSeq shadow 1280 [⟨3, 10, 9, 12⟩])
      = [3201, 3202, 3203, 3204, 3205, 3521, 3522, 3523, 3524, 3525] := rfl

/-- C7: an unchanged shadow surface and the same rectangle batch make a
second refresh a no-op: the output surface after two successive calls is
bit-identical to the output after one call, for every blanked flag,
shadow, pitch, batch and initial output. -/
theorem refresh_idempotent (blanked : Bool) (shadow : Int → Nat) (pitch : Nat)
    (boxes : List Box) (out : Int → Nat) :
    CUBERefreshArea blanked shadow pitch boxes
        (CUBERefreshArea blanked shadow pitch boxes out)
      = CUBERefreshArea blanked shadow pitch boxes out := by
  cases blanked with
  | true => rfl
  | false =>
      rw [refreshArea_eq_writes, refreshArea_eq_writes, applyWrites_idem]

/-- C8: with the Blanked flag set, CUBERefreshArea returns before any
work: the output surface is returned untouched for every batch (the
shadow surface and the flag are inputs the function never writes). -/
theorem blanked_refresh_noop (shadow : Int → Nat) (pitch : Nat)
    (boxes : List Box) (out : Int → Nat) :
    CUBERefreshArea true shadow pitch boxes out = out := rfl

/-- C6 counterexample: with an all-zero shadow and all-zero output, the
rectangle (3, 10, 9, 12) on a 640-wide (pitch 1280) surface writes word
3205 = (10*1280 + 10*2)/4, the word holding pixel columns 10 and 11 of
row 10 - columns the claim says are not converted (it claims exactly
columns 2 through 9). -/
theorem alignment_scenario_cex :
    CUBERefreshArea false (fun _ => 0) 1280 [⟨3, 10, 9, 12⟩] (fun _ => 0) 3205
      = 0x00800080
  ∧ (0x00800080 : Nat) ≠ 0 := by
  constructor
  · decide
  · decide

/-- C6 amended: the rectangle (3, 10, 9, 12) is processed identically to
(2, 10, 10, 12) (left edge rounded down to 2, aligned right edge 10), but
the aligned value (x2+1) & ~1 is used as the pair count measured from the
left edge, so the call converts pixel columns 2 through 11 (not 2 through
9) of rows 10 and 11, and touches no other word of the output surface. -/
theorem alignment_scenario (shadow out : Int → Nat) (a : Int)
    (ha : a ∉ ([3201, 3202, 3203, 3204, 3205, 3521, 3522, 3523, 3524, 3525] : List Int)) :
    (CUBERefreshArea false shadow 1280 [⟨3, 10, 9, 12⟩] out
       = CUBERefreshArea false shadow 1280 [⟨2, 10, 10, 12⟩] out)
  ∧ CUBERefreshArea false shadow 1280 [⟨3, 10, 9, 12⟩] out 3205
       = rgbrgb16toyuy2 (shadow 6410) (shadow 6411)
  ∧ CUBERefreshArea false shadow 1280 [⟨3, 10, 9, 12⟩] out a = out a := by
  refine ⟨rfl, rfl, ?_⟩
  rw [refreshArea_eq_writes]
  apply applyWrites_out_of_domain
  intro p hp hpa
  have hfst : p.1 ∈ List.map Prod.fst (areaWriteSeq shadow 1280 [⟨3, 10, 9, 12⟩]) :=
    List.mem_map_of_mem Prod.fst hp
  rw [area3writes_addresses, hpa] at hfst
  exact ha hfst

/-- Witness for alignment_scenario at shadow 0, output 1, address 0. -/
theorem alignment_scenario_witness :
    ((0 : Int) ∉ ([3201, 3202, 3203, 3204, 3205, 3521, 3522, 3523, 3524, 3525] : List Int))
  ∧ ((CUBERefreshArea false (fun _ => 0) 1280 [⟨3, 10, 9, 12⟩] (fun _ => 1)
        = CUBERefreshArea false (fun _ => 0) 1280 [⟨2, 10, 10, 12⟩] (fun _ => 1))
     ∧ CUBERefreshArea false (fun _ => 0) 1280 [⟨3, 10, 9, 12⟩] (fun _ => 1) 3205
        = rgbrgb16toyuy2 0 0
     ∧ CUBERefreshArea false (fun _ => 0) 1280 [⟨3, 10, 9, 12⟩] (fun _ => 1) 0 = 1) :=
  ⟨by decide, alignment_scenario (fun _ => 0) (fun _ => 1) 0 (by decide)⟩

/-- C9 counterexample: the round trip Active - Blanked - Active does not
restore an arbitrary pre-blank output.  With an all-zero shadow, pitch
1280 and VDisplay 1: (a) a pre-blank output holding 7 everywhere comes
back with word 0 holding the converted shadow value 0x00800080, not 7;
(b) even a pre-blank output produced by a full refresh holds its original
content 7 at word 320 (the row-padding word the hardcoded 640-wide
refresh never writes), yet after the round trip that word is 0, left over
from the zero-fill on blanking. -/
theorem blanking_roundtrip_cex :
    (CUBESaveScreen (fun _ => 0) 1280 1
        (CUBESaveScreen (fun _ => 0) 1280 1 (false, fun _ => 7) false) true).2 0
      = 0x00800080
  ∧ (0x00800080 : Nat) ≠ 7
  ∧ CUBERefreshAll false (fun _ => 0) 1280 1 (fun _ => 7) 320 = 7
  ∧ (CUBESaveScreen (fun _ => 0) 1280 1
        (CUBESaveScreen (fun _ => 0) 1280 1
          (false, CUBERefreshAll false (fun _ => 0) 1280 1 (fun _ => 7)) false) true).2 320
      = 0 := by
  refine ⟨by decide, by decide, by decide, by decide⟩

/-- C9 amended: when the pre-blank output was itself produced by a
full-area refresh from the same shadow surface, the round trip
Active - Blanked - Active (zero-fill, then full-area refresh from the
intact shadow) restores the output exactly at every word address the
full-area refresh writes; words the hardcoded 640-wide refresh never
writes stay zero-filled rather than being restored. -/
theorem blanking_roundtrip_on_refreshed_area
    (shadow o0 : Int → Nat) (pitch vdisp : Nat) (a : Int)
    (ha : (lastWrite (areaWriteSeq shadow pitch [⟨0, 0, 640, vdisp⟩]) a).isSome = true) :
    (CUBESaveScreen shadow pitch vdisp
        (CUBESaveScreen shadow pitch vdisp
          (false, CUBERefreshAll false shadow pitch vdisp o0) false) true).2 a
      = CUBERefreshAll false shadow pitch vdisp o0 a := by
  show CUBERefreshAll false shadow pitch vdisp (fun _ => 0) a
    = CUBERefreshAll false shadow pitch vdisp o0 a
  unfold CUBERefreshAll
  rw [refreshArea_eq_writes, refreshArea_eq_writes]
  rw [applyWrites_eq, applyWrites_eq]
  cases hlw : lastWrite (areaWriteSeq shadow pitch [⟨0, 0, 640, vdisp⟩]) a with
  | some v => rfl
  | none =>
      rw [hlw] at ha
      exact absurd ha (by decide)

/-- Witness for blanking_roundtrip_on_refreshed_area with an all-zero
shadow, pre-blank base output 7, pitch 1280, VDisplay 1, at word 0. -/
theorem blanking_roundtrip_witness :
    ((lastWrite (areaWriteSeq (fun _ => 0) 1280 [⟨0, 0, 640, 1⟩]) 0).isSome = true)
  ∧ (CUBESaveScreen (fun _ => 0) 1280 1
        (CUBESaveScreen (fun _ => 0) 1280 1
          (false, CUBERefreshAll false (fun _ => 0) 1280 1 (fun _ => 7)) false) true).2 0
      = CUBERefreshAll false (fun _ => 0) 1280 1 (fun _ => 7) 0 :=
  ⟨by decide,
    blanking_roundtrip_on_refreshed_area (fun _ => 0) (fun _ => 7) 1280 1 0 (by decide)⟩
